import Mathlib

/-!
Shallow embedding of the ShopWithDanny storefront core
(`server/storage.ts` MemStorage, `server/routes.ts` order route,
`client/src/pages/checkout-page.tsx` checkout step machine).

Conventions of the embedding:
* a TypeScript `Map<number, T>` is a `List T` in insertion order, where each
  record carries its own `id`; `map.set(k, v)` replaces in place when some
  record has id `k` and appends otherwise; `Array.from(map.values())` is the
  list itself;
* decimal strings such as `"19.99"` (and the `Number(...)` coercions applied
  to them) are modelled as exact rationals `Rat`;
* `Date` timestamps are modelled as integers (milliseconds);
* JavaScript truthiness of an optional field is made explicit: `undefined`,
  `0`, `""` and `false` are falsy, everything else is truthy;
* the TypeScript non-null assertion `product!` yields a possibly-missing
  value at runtime, so joined product fields are `Option Product`.
-/

/-- A product record (`shared/schema.ts` `products` table). -/
structure Product where
  id : Nat
  name : String
  description : String
  price : Rat
  oldPrice : Option Rat
  imageUrl : String
  categoryId : Nat
  rating : Rat
  reviews : Nat
  inStock : Bool
  isNew : Bool
  isFeatured : Bool
  isPopular : Bool
  isSale : Bool
  createdAt : Int
  deriving Repr, DecidableEq

/-- Product data before the store assigns an id (`InsertProduct`). -/
structure InsertProduct where
  name : String
  description : String
  price : Rat
  oldPrice : Option Rat
  imageUrl : String
  categoryId : Nat
  rating : Rat
  reviews : Nat
  inStock : Bool
  isNew : Bool
  isFeatured : Bool
  isPopular : Bool
  isSale : Bool
  createdAt : Int
  deriving Repr, DecidableEq

/-- A category record (`categories` table). -/
structure Category where
  id : Nat
  name : String
  icon : String
  deriving Repr, DecidableEq

/-- A cart line item (`cart_items` table). -/
structure CartItem where
  id : Nat
  userId : Nat
  productId : Nat
  quantity : Nat
  deriving Repr, DecidableEq

/-- Cart line item data before the store assigns an id (`InsertCartItem`). -/
structure InsertCartItem where
  userId : Nat
  productId : Nat
  quantity : Nat
  deriving Repr, DecidableEq

/-- An order header (`orders` table). -/
structure Order where
  id : Nat
  userId : Nat
  total : Rat
  status : String
  createdAt : Int
  deriving Repr, DecidableEq

/-- Order header data before the store assigns id and timestamp
(`InsertOrder`). -/
structure InsertOrder where
  userId : Nat
  total : Rat
  status : String
  deriving Repr, DecidableEq

/-- An order line item (`order_items` table). -/
structure OrderItem where
  id : Nat
  orderId : Nat
  productId : Nat
  quantity : Nat
  price : Rat
  deriving Repr, DecidableEq

/-- Order line item data before the store assigns an id (`InsertOrderItem`,
which still carries an `orderId` field; `createOrder` overwrites it). -/
structure InsertOrderItem where
  orderId : Nat
  productId : Nat
  quantity : Nat
  price : Rat
  deriving Repr, DecidableEq

/-- A user record (`users` table). -/
structure User where
  id : Nat
  username : String
  password : String
  email : String
  firstName : Option String
  lastName : Option String
  createdAt : Int
  deriving Repr, DecidableEq

/-- User data before the store assigns id and timestamp (`InsertUser`). -/
structure InsertUser where
  username : String
  password : String
  email : String
  firstName : Option String
  lastName : Option String
  deriving Repr, DecidableEq

/-- The state of `MemStorage`: the six record maps (as insertion-ordered
lists) and the six auto-increment counters. -/
structure MemStorage where
  users : List User
  products : List Product
  categories : List Category
  cartItems : List CartItem
  orders : List Order
  orderItems : List OrderItem
  userId : Nat
  productId : Nat
  categoryId : Nat
  cartItemId : Nat
  orderId : Nat
  orderItemId : Nat
  deriving Repr, DecidableEq

/-- `map.set(k, v)`: replace the record whose id is `k` in place if one
exists, otherwise append. `idOf` extracts a record's key. -/
def mapSet (idOf : α → Nat) (l : List α) (k : Nat) (v : α) : List α :=
  if l.any (fun x => idOf x == k) then
    l.map (fun x => if idOf x == k then v else x)
  else
    l ++ [v]

/-- JavaScript truthiness of an optional number (`0` and `undefined` are
falsy). -/
def natTruthy : Option Nat → Bool
  | some n => n != 0
  | none => false

/-- JavaScript truthiness of an optional string (`""` and `undefined` are
falsy). -/
def strTruthy : Option String → Bool
  | some s => s != ""
  | none => false

/-- JavaScript truthiness of an optional boolean (`false` and `undefined`
are falsy). -/
def boolTruthy : Option Bool → Bool
  | some b => b
  | none => false

/-- The options object accepted by `MemStorage.getProducts`. -/
structure ProductsOptions where
  categoryId : Option Nat := none
  featured : Option Bool := none
  limit : Option Nat := none
  offset : Option Nat := none
  search : Option String := none
  sort : Option String := none
  deriving Repr, DecidableEq

/-- The options object accepted by `MemStorage.getProductCount`. -/
structure CountOptions where
  categoryId : Option Nat := none
  search : Option String := none
  deriving Repr, DecidableEq

/-- The restriction of a `getProducts` filter to the fields
`getProductCount` accepts, as performed by the `/api/products` route. -/
def ProductsOptions.toCountOptions (o : ProductsOptions) : CountOptions :=
  { categoryId := o.categoryId, search := o.search }

/-- Contiguous-sublist test on character lists, used to model
`String.prototype.includes`. -/
def charsInfixOf (needle hay : List Char) : Bool :=
  match hay with
  | [] => needle.isEmpty
  | c :: t => needle.isPrefixOf (c :: t) || charsInfixOf needle t

/-- Case-insensitive substring test: `a.toLowerCase().includes(b)` where `b`
is already lower-cased. -/
def lowerIncludes (a b : String) : Bool :=
  charsInfixOf b.toLower.toList a.toLower.toList

/-- The search predicate shared verbatim by `getProducts` and
`getProductCount`: case-insensitive substring match on name or
description. -/
def searchPred (search : String) (p : Product) : Bool :=
  lowerIncludes p.name search || lowerIncludes p.description search

/-- The category-filter stage of `getProducts` (guard
`if (options?.categoryId)` then `p.categoryId === options.categoryId`). -/
def applyCategoryFilter (categoryId : Option Nat) (l : List Product) :
    List Product :=
  match categoryId with
  | some c => if c != 0 then l.filter (fun p => p.categoryId == c) else l
  | none => l

/-- The featured-filter stage of `getProducts` (guard
`if (options?.featured)` then `p.isFeatured`). -/
def applyFeaturedFilter (featured : Option Bool) (l : List Product) :
    List Product :=
  match featured with
  | some b => if b then l.filter (fun p => p.isFeatured) else l
  | none => l

/-- The search-filter stage of `getProducts` (guard `if (options?.search)`
then lower-cased substring match on name or description). -/
def applySearchFilter (search : Option String) (l : List Product) :
    List Product :=
  match search with
  | some q => if q != "" then l.filter (searchPred q.toLower) else l
  | none => l

/-- The sort stage of `getProducts`: the `switch (options.sort)` applied
only when `options?.sort` is truthy; a stable sort models
`Array.prototype.sort`. -/
def applySort (sort : Option String) (l : List Product) : List Product :=
  match sort with
  | some k =>
    if k != "" then
      if k == "price-asc" then
        l.mergeSort (fun a b => decide (a.price ≤ b.price))
      else if k == "price-desc" then
        l.mergeSort (fun a b => decide (b.price ≤ a.price))
      else if k == "newest" then
        l.mergeSort (fun a b => decide (b.createdAt ≤ a.createdAt))
      else if k == "rating" then
        l.mergeSort (fun a b => decide (b.rating ≤ a.rating))
      else
        l.mergeSort (fun a b => decide (a.id ≤ b.id))
    else l
  | none => l

/-- The pagination stage of `getProducts`:
`results.slice(offset, offset + limit)` applied only when both `offset`
and `limit` are not `undefined`. -/
def applyPagination (offset limit : Option Nat) (l : List Product) :
    List Product :=
  match offset, limit with
  | some off, some lim => (l.drop off).take lim
  | _, _ => l

/-- `MemStorage.getProduct`: point lookup in the product map. -/
def getProduct (s : MemStorage) (id : Nat) : Option Product :=
  s.products.find? (fun p => p.id == id)

/-- `MemStorage.getProducts`: filter by category, featured flag and search
text, then sort, then paginate. -/
def getProducts (s : MemStorage) (o : ProductsOptions) : List Product :=
  applyPagination o.offset o.limit
    (applySort o.sort
      (applySearchFilter o.search
        (applyFeaturedFilter o.featured
          (applyCategoryFilter o.categoryId s.products))))

/-- `MemStorage.getProductCount`: the whole map size unless a truthy
`categoryId` or `search` is present, in which case the category and search
filters (the same predicates as `getProducts`) are applied and the result
counted. There is no featured filter. -/
def getProductCount (s : MemStorage) (o : CountOptions) : Nat :=
  if natTruthy o.categoryId || strTruthy o.search then
    (applySearchFilter o.search
      (applyCategoryFilter o.categoryId s.products)).length
  else
    s.products.length

/-- A cart line item joined with its product, as returned by
`MemStorage.getCartItems` (`{...item, product}` where `product` may be
`undefined` at runtime). -/
structure JoinedCartItem where
  id : Nat
  userId : Nat
  productId : Nat
  quantity : Nat
  product : Option Product
  deriving Repr, DecidableEq

/-- `MemStorage.getCategories`. -/
def getCategories (s : MemStorage) : List Category :=
  s.categories

/-- `MemStorage.getCartItems`: the user's line items, each joined with
`getProduct(item.productId)`. -/
def getCartItems (s : MemStorage) (userId : Nat) : List JoinedCartItem :=
  (s.cartItems.filter (fun item => item.userId == userId)).map
    (fun item =>
      { id := item.id, userId := item.userId, productId := item.productId,
        quantity := item.quantity, product := getProduct s item.productId })

/-- `MemStorage.getCartItem`: point lookup by the (userId, productId)
composite key. -/
def getCartItem (s : MemStorage) (userId productId : Nat) :
    Option CartItem :=
  s.cartItems.find?
    (fun item => item.userId == userId && item.productId == productId)

/-- `MemStorage.addCartItem`: if a line item for the (userId, productId)
pair exists, add the incoming quantity to it in place; otherwise append a
new line item with a fresh id. Returns the stored item and the new state. -/
def addCartItem (s : MemStorage) (ins : InsertCartItem) :
    CartItem × MemStorage :=
  match getCartItem s ins.userId ins.productId with
  | some existingItem =>
    let updatedItem : CartItem :=
      { existingItem with quantity := existingItem.quantity + ins.quantity }
    (updatedItem,
      { s with cartItems :=
          mapSet CartItem.id s.cartItems existingItem.id updatedItem })
  | none =>
    let id := s.cartItemId
    let cartItem : CartItem :=
      { id := id, userId := ins.userId, productId := ins.productId,
        quantity := ins.quantity }
    (cartItem,
      { s with cartItems := mapSet CartItem.id s.cartItems id cartItem,
               cartItemId := s.cartItemId + 1 })

/-- `MemStorage.updateCartItem`: overwrite the quantity of the line item
with the given id, if it exists. -/
def updateCartItem (s : MemStorage) (id quantity : Nat) :
    Option CartItem × MemStorage :=
  match s.cartItems.find? (fun item => item.id == id) with
  | none => (none, s)
  | some cartItem =>
    let updatedItem : CartItem := { cartItem with quantity := quantity }
    (some updatedItem,
      { s with cartItems := mapSet CartItem.id s.cartItems id updatedItem })

/-- `MemStorage.removeCartItem`: delete the line item with the given id. -/
def removeCartItem (s : MemStorage) (id : Nat) : MemStorage :=
  { s with cartItems := s.cartItems.filter (fun item => !(item.id == id)) }

/-- `MemStorage.clearCart`: delete every line item owned by the user. -/
def clearCart (s : MemStorage) (userId : Nat) : MemStorage :=
  { s with cartItems :=
      s.cartItems.filter (fun item => !(item.userId == userId)) }

/-- `MemStorage.createUser`: assign a fresh id and timestamp and insert. -/
def createUser (s : MemStorage) (now : Int) (ins : InsertUser) :
    User × MemStorage :=
  let id := s.userId
  let user : User :=
    { id := id, username := ins.username, password := ins.password,
      email := ins.email, firstName := ins.firstName,
      lastName := ins.lastName, createdAt := now }
  (user, { s with users := mapSet User.id s.users id user,
                  userId := s.userId + 1 })

/-- The loop body of `createOrder`: insert each incoming line item with a
fresh id and the new order's id as foreign key. -/
def insertOrderItems (orderId : Nat) (items : List InsertOrderItem)
    (s : MemStorage) : MemStorage :=
  match items with
  | [] => s
  | item :: rest =>
    let itemId := s.orderItemId
    let orderItem : OrderItem :=
      { id := itemId, orderId := orderId, productId := item.productId,
        quantity := item.quantity, price := item.price }
    insertOrderItems orderId rest
      { s with orderItems := mapSet OrderItem.id s.orderItems itemId orderItem,
               orderItemId := s.orderItemId + 1 }

/-- `MemStorage.createOrder`: assign the order a fresh id and timestamp,
persist the header, then persist every line item with a fresh id and the
order's id. There is no emptiness check on `items`. -/
def createOrder (s : MemStorage) (now : Int) (orderData : InsertOrder)
    (items : List InsertOrderItem) : Order × MemStorage :=
  let id := s.orderId
  let order : Order :=
    { id := id, userId := orderData.userId, total := orderData.total,
      status := orderData.status, createdAt := now }
  let s1 : MemStorage :=
    { s with orders := mapSet Order.id s.orders id order,
             orderId := s.orderId + 1 }
  (order, insertOrderItems id items s1)

/-- An order line item joined with its product, as returned by
`MemStorage.getOrder`. -/
structure JoinedOrderItem where
  id : Nat
  orderId : Nat
  productId : Nat
  quantity : Nat
  price : Rat
  product : Option Product
  deriving Repr, DecidableEq

/-- An order header together with its joined line items, as returned by
`MemStorage.getOrder`. -/
structure OrderWithItems where
  order : Order
  items : List JoinedOrderItem
  deriving Repr, DecidableEq

/-- `MemStorage.getOrders`: the user's order headers, most recent first. -/
def getOrders (s : MemStorage) (userId : Nat) : List Order :=
  (s.orders.filter (fun o => o.userId == userId)).mergeSort
    (fun a b => decide (b.createdAt ≤ a.createdAt))

/-- `MemStorage.getOrder`: the order header, if present, together with its
line items each joined with `getProduct(item.productId)`. -/
def getOrder (s : MemStorage) (id : Nat) : Option OrderWithItems :=
  match s.orders.find? (fun o => o.id == id) with
  | none => none
  | some order =>
    some
      { order := order,
        items :=
          (s.orderItems.filter (fun item => item.orderId == id)).map
            (fun item =>
              { id := item.id, orderId := item.orderId,
                productId := item.productId, quantity := item.quantity,
                price := item.price,
                product := getProduct s item.productId }) }

/-- The seeding loop of `MemStorage.seedData`: each record is appended with
the next auto-increment id, starting at `startId`. -/
def seedProducts (inserts : List InsertProduct) (startId : Nat) :
    List Product :=
  match inserts with
  | [] => []
  | i :: rest =>
    { id := startId, name := i.name, description := i.description,
      price := i.price, oldPrice := i.oldPrice, imageUrl := i.imageUrl,
      categoryId := i.categoryId, rating := i.rating, reviews := i.reviews,
      inStock := i.inStock, isNew := i.isNew, isFeatured := i.isFeatured,
      isPopular := i.isPopular, isSale := i.isSale,
      createdAt := i.createdAt } :: seedProducts rest (startId + 1)

/-- The analogous seeding loop for categories. -/
def seedCategories (inserts : List (String × String)) (startId : Nat) :
    List Category :=
  match inserts with
  | [] => []
  | (n, ic) :: rest =>
    { id := startId, name := n, icon := ic } :: seedCategories rest (startId + 1)

/-- The `MemStorage` constructor: empty maps, counters at 1, then
`seedData()` fills categories and products with ascending ids. -/
def mkMemStorage (catData : List (String × String))
    (productData : List InsertProduct) : MemStorage :=
  { users := [], products := seedProducts productData 1,
    categories := seedCategories catData 1,
    cartItems := [], orders := [], orderItems := [],
    userId := 1, productId := productData.length + 1,
    categoryId := catData.length + 1,
    cartItemId := 1, orderId := 1, orderItemId := 1 }

/-- Outcome of the `POST /api/orders` route handler. -/
inductive OrdersRouteResult where
  | badRequest
  | created (order : Order)
  deriving Repr, DecidableEq

/-- The `POST /api/orders` handler (`routes.ts`): reject an empty items
array with 400 before touching the store; otherwise create the order and
then clear the requesting user's cart. Schema validation is the external
validation collaborator and is modelled as the identity. -/
def postOrders (s : MemStorage) (userId : Nat) (now : Int)
    (orderData : InsertOrder) (items : List InsertOrderItem) :
    OrdersRouteResult × MemStorage :=
  if items.length == 0 then
    (OrdersRouteResult.badRequest, s)
  else
    let (order, s1) :=
      createOrder s now { orderData with userId := userId } items
    (OrdersRouteResult.created order, clearCart s1 userId)

/-- One mutating operation of the storage API (the read operations do not
change the state). `MemStorage` has no product- or category-mutating
operation at all. -/
inductive StorageOp where
  | opCreateUser (now : Int) (ins : InsertUser)
  | opAddCartItem (ins : InsertCartItem)
  | opUpdateCartItem (id quantity : Nat)
  | opRemoveCartItem (id : Nat)
  | opClearCart (userId : Nat)
  | opCreateOrder (now : Int) (orderData : InsertOrder)
      (items : List InsertOrderItem)
  deriving Repr

/-- Apply one storage operation to the state. -/
def applyOp (s : MemStorage) : StorageOp → MemStorage
  | StorageOp.opCreateUser now ins => (createUser s now ins).2
  | StorageOp.opAddCartItem ins => (addCartItem s ins).2
  | StorageOp.opUpdateCartItem id q => (updateCartItem s id q).2
  | StorageOp.opRemoveCartItem id => removeCartItem s id
  | StorageOp.opClearCart u => clearCart s u
  | StorageOp.opCreateOrder now od items => (createOrder s now od items).2

/-- Apply a sequence of storage operations from left to right. -/
def applyOps (s : MemStorage) : List StorageOp → MemStorage
  | [] => s
  | op :: rest => applyOps (applyOp s op) rest

/-- Replace the product map wholesale. No storage operation can do this;
it over-approximates any conceivable change to live product data
(price edits included) when showing order history is insulated from it. -/
def setProducts (s : MemStorage) (ps : List Product) : MemStorage :=
  { s with products := ps }

/-- The payment methods of the checkout form
(`z.enum(["credit", "paypal", "bank"])`). -/
inductive PaymentMethod where
  | credit
  | paypal
  | bank
  deriving Repr, DecidableEq

/-- The checkout form values (`CheckoutFormValues`); the card sub-fields
are optional strings defaulting to `""`. -/
structure CheckoutFormValues where
  firstName : String
  lastName : String
  email : String
  phone : String
  address : String
  city : String
  state : String
  zipCode : String
  country : String
  paymentMethod : PaymentMethod
  cardNumber : String
  cardName : String
  expMonth : String
  expYear : String
  cvv : String
  deriving Repr, DecidableEq

/-- The states of the checkout step machine (`CheckoutStep`). -/
inductive CheckoutStep where
  | shipping
  | payment
  | review
  | confirmation
  deriving Repr, DecidableEq

/-- `validatePaymentFields`: for the credit method each of the five card
sub-fields must be truthy (non-empty); other methods always pass. -/
def validatePaymentFields (v : CheckoutFormValues) : Bool :=
  if v.paymentMethod = PaymentMethod.credit then
    if v.cardNumber == "" then false
    else if v.cardName == "" then false
    else if v.expMonth == "" then false
    else if v.expYear == "" then false
    else if v.cvv == "" then false
    else true
  else true

/-- The step taken by `onSubmit` for a validated form: shipping advances to
payment; payment advances to review only when `validatePaymentFields`
passes, otherwise it stays (the handler returns after a toast); review
fires the order mutation and the step changes only in its success callback,
not in `onSubmit` itself; confirmation has no submit path. -/
def onSubmitStep (step : CheckoutStep) (v : CheckoutFormValues) :
    CheckoutStep :=
  match step with
  | CheckoutStep.shipping => CheckoutStep.payment
  | CheckoutStep.payment =>
    if validatePaymentFields v then CheckoutStep.review
    else CheckoutStep.payment
  | CheckoutStep.review => CheckoutStep.review
  | CheckoutStep.confirmation => CheckoutStep.confirmation

/-- A client-side cart entry as consumed by the checkout page: a cart line
item with its product present (`CartItem & { product: Product }`). -/
structure ClientCartItem where
  id : Nat
  userId : Nat
  productId : Nat
  quantity : Nat
  product : Product
  deriving Repr, DecidableEq

/-- `subtotal`: `reduce((total, item) => total + price * quantity, 0)`. -/
def checkoutSubtotal (items : List ClientCartItem) : Rat :=
  items.foldl (fun t item => t + item.product.price * item.quantity) 0

/-- `shippingCost`: flat 9.99 when the subtotal is positive, else 0. -/
def checkoutShippingCost (items : List ClientCartItem) : Rat :=
  if checkoutSubtotal items > 0 then 9.99 else 0

/-- `taxRate`: 8%. -/
def checkoutTaxRate : Rat := 0.08

/-- `tax`: `subtotal * taxRate`. -/
def checkoutTax (items : List ClientCartItem) : Rat :=
  checkoutSubtotal items * checkoutTaxRate

/-- `total`: `subtotal + shippingCost + tax`. -/
def checkoutTotal (items : List ClientCartItem) : Rat :=
  checkoutSubtotal items + checkoutShippingCost items + checkoutTax items

/-- A store constructed with no seed data: all maps empty, counters at 1. -/
def emptyStore : MemStorage := mkMemStorage [] []

/-- Seed row used by concrete test fixtures: a featured product. -/
def insertA : InsertProduct :=
  { name := "a", description := "da", price := 10, oldPrice := none,
    imageUrl := "ia", categoryId := 1, rating := 4, reviews := 3,
    inStock := true, isNew := false, isFeatured := true, isPopular := false,
    isSale := false, createdAt := 100 }

/-- Seed row used by concrete test fixtures: a non-featured product. -/
def insertB : InsertProduct :=
  { name := "b", description := "db", price := 20, oldPrice := some 25,
    imageUrl := "ib", categoryId := 2, rating := 3, reviews := 5,
    inStock := true, isNew := true, isFeatured := false, isPopular := true,
    isSale := false, createdAt := 200 }

/-- A store seeded with one featured and one non-featured product. -/
def twoProductStore : MemStorage := mkMemStorage [("c", "i")] [insertA, insertB]

/-- C9: filter-field presence is decided by JavaScript truthiness, so a
categoryId of 0, an empty search string, or a false featured flag each
behave exactly as the absent field, in both `getProducts` and
`getProductCount`. -/
theorem truthiness_falsy_fields_ignored :
    (∀ (s : MemStorage) (f : Option Bool) (l off : Option Nat)
        (se so : Option String),
      getProducts s { categoryId := some 0, featured := f, limit := l,
                      offset := off, search := se, sort := so } =
      getProducts s { categoryId := none, featured := f, limit := l,
                      offset := off, search := se, sort := so }) ∧
    (∀ (s : MemStorage) (c : Option Nat) (f : Option Bool)
        (l off : Option Nat) (so : Option String),
      getProducts s { categoryId := c, featured := f, limit := l,
                      offset := off, search := some "", sort := so } =
      getProducts s { categoryId := c, featured := f, limit := l,
                      offset := off, search := none, sort := so }) ∧
    (∀ (s : MemStorage) (c : Option Nat) (l off : Option Nat)
        (se so : Option String),
      getProducts s { categoryId := c, featured := some false, limit := l,
                      offset := off, search := se, sort := so } =
      getProducts s { categoryId := c, featured := none, limit := l,
                      offset := off, search := se, sort := so }) ∧
    (∀ (s : MemStorage) (se : Option String),
      getProductCount s { categoryId := some 0, search := se } =
      getProductCount s { categoryId := none, search := se }) ∧
    (∀ (s : MemStorage) (c : Option Nat),
      getProductCount s { categoryId := c, search := some "" } =
      getProductCount s { categoryId := c, search := none }) :=
  ⟨fun _ _ _ _ _ _ => rfl, fun _ _ _ _ _ _ => rfl, fun _ _ _ _ _ _ => rfl,
    fun _ _ => rfl, fun _ _ => rfl⟩

/-- C2 counterexample: the storage-level `createOrder`, called directly
with an empty items list, does create an order header — the order count
changes, refuting the claim read as a property of `MemStorage.createOrder`
itself. -/
theorem createOrder_empty_items_persists_header :
    (createOrder emptyStore 0 { userId := 1, total := 0, status := "pending" }
        []).2.orders.length ≠ emptyStore.orders.length := by
  decide

/-- C2 (amended): the order-creation API path (`POST /api/orders` handler)
rejects an empty items array with 400 before any store mutation: the
returned state is exactly the input state, so no order header is persisted
and the order count is unchanged. -/
theorem postOrders_empty_items_rejected_before_mutation
    (s : MemStorage) (userId : Nat) (now : Int) (od : InsertOrder) :
    postOrders s userId now od [] = (OrdersRouteResult.badRequest, s) :=
  rfl

/-- C5: in the payment step, submitting with the credit method and any
empty card sub-field never reaches the review step, while the paypal and
bank methods always advance to review with no card fields required. -/
theorem payment_step_gating (v : CheckoutFormValues) :
    (v.paymentMethod = PaymentMethod.credit →
      (v.cardNumber = "" ∨ v.cardName = "" ∨ v.expMonth = "" ∨
        v.expYear = "" ∨ v.cvv = "") →
      onSubmitStep CheckoutStep.payment v ≠ CheckoutStep.review) ∧
    ((v.paymentMethod = PaymentMethod.paypal ∨
        v.paymentMethod = PaymentMethod.bank) →
      onSubmitStep CheckoutStep.payment v = CheckoutStep.review) := by
  constructor
  · intro hm he
    have hv : validatePaymentFields v = false := by
      unfold validatePaymentFields
      rw [if_pos hm]
      rcases he with h | h | h | h | h <;> simp [h]
    simp [onSubmitStep, hv]
  · intro hm
    have hv : validatePaymentFields v = true := by
      unfold validatePaymentFields
      rcases hm with h | h <;> rw [if_neg (by rw [h]; intro hc; cases hc)]
    simp [onSubmitStep, hv]

/-- Payment-form fixture: credit method with an empty card number. -/
def creditFormEmptyCard : CheckoutFormValues :=
  { firstName := "j", lastName := "d", email := "e", phone := "p",
    address := "a", city := "c", state := "s", zipCode := "z",
    country := "u", paymentMethod := PaymentMethod.credit,
    cardNumber := "", cardName := "n", expMonth := "01", expYear := "26",
    cvv := "123" }

/-- Payment-form fixture: paypal method with all card fields empty. -/
def paypalForm : CheckoutFormValues :=
  { creditFormEmptyCard with
    paymentMethod := PaymentMethod.paypal
    cardName := ""
    expMonth := ""
    expYear := ""
    cvv := "" }

/-- Witness for C5: a concrete credit form with an empty card number is
blocked, and a concrete paypal form with no card data advances to
review. -/
theorem payment_step_gating_witness :
    onSubmitStep CheckoutStep.payment creditFormEmptyCard ≠
      CheckoutStep.review ∧
    onSubmitStep CheckoutStep.payment paypalForm = CheckoutStep.review :=
  ⟨(payment_step_gating creditFormEmptyCard).1 rfl (Or.inl rfl),
    (payment_step_gating paypalForm).2 (Or.inl rfl)⟩

/-- Product fixture for the checkout-total scenario: price 19.99. -/
def productNineteen : Product :=
  { id := 1, name := "t", description := "dt", price := 19.99,
    oldPrice := none, imageUrl := "it", categoryId := 2, rating := 4,
    reviews := 245, inStock := true, isNew := false, isFeatured := false,
    isPopular := true, isSale := false, createdAt := 300 }

/-- Cart fixture for the checkout-total scenario: one line, quantity 2. -/
def cartNineteenQty2 : List ClientCartItem :=
  [{ id := 1, userId := 1, productId := 1, quantity := 2,
     product := productNineteen }]

/-- C6: the checkout order total is subtotal plus a flat 9.99 shipping fee
exactly when the subtotal is positive plus 8% tax on the subtotal; on a
cart with one 19.99 product at quantity 2 this gives 39.98 / 9.99 /
3.1984 / 53.1684. -/
theorem checkout_total_formula :
    (∀ items : List ClientCartItem,
      checkoutTotal items =
        checkoutSubtotal items +
          (if checkoutSubtotal items > 0 then (9.99 : Rat) else 0) +
          (8 / 100) * checkoutSubtotal items) ∧
    checkoutSubtotal cartNineteenQty2 = 39.98 ∧
    checkoutShippingCost cartNineteenQty2 = 9.99 ∧
    checkoutTax cartNineteenQty2 = 3.1984 ∧
    checkoutTotal cartNineteenQty2 = 53.1684 := by
  refine ⟨fun items => ?_, by norm_num [checkoutSubtotal, cartNineteenQty2,
    productNineteen], ?_, ?_, ?_⟩
  · unfold checkoutTotal checkoutShippingCost checkoutTax checkoutTaxRate
    norm_num [mul_comm]
  · norm_num [checkoutShippingCost, checkoutSubtotal, cartNineteenQty2,
      productNineteen]
  · norm_num [checkoutTax, checkoutTaxRate, checkoutSubtotal,
      cartNineteenQty2, productNineteen]
  · norm_num [checkoutTotal, checkoutTax, checkoutTaxRate,
      checkoutShippingCost, checkoutSubtotal, cartNineteenQty2,
      productNineteen]

/-- C8: clearing one user's cart empties exactly that user's cart: the
user's subsequent read is empty, any other user's read is unchanged, and
the product, order and order-item tables are untouched. -/
theorem clearCart_only_affects_user (s : MemStorage) (u v : Nat)
    (hvu : v ≠ u) :
    getCartItems (clearCart s u) u = [] ∧
    getCartItems (clearCart s u) v = getCartItems s v ∧
    (clearCart s u).products = s.products ∧
    (clearCart s u).orders = s.orders ∧
    (clearCart s u).orderItems = s.orderItems := by
  refine ⟨?_, ?_, rfl, rfl, rfl⟩
  · simp [getCartItems, clearCart, List.filter_filter]
  · show ((s.cartItems.filter (fun it => !(it.userId == u))).filter
        (fun it => it.userId == v)).map _ =
      (s.cartItems.filter (fun it => it.userId == v)).map _
    rw [List.filter_filter]
    have hpred : ∀ x ∈ s.cartItems,
        ((x.userId == v) && !(x.userId == u)) = (x.userId == v) := by
      intro x _
      by_cases h : x.userId = v
      · simp [h]
        exact hvu
      · simp [h]
    rw [List.filter_congr hpred]
    rfl

/-- Cart fixture: two users each owning one line item. -/
def twoUserCartStore : MemStorage :=
  { emptyStore with
    cartItems := [{ id := 1, userId := 1, productId := 5, quantity := 2 },
                  { id := 2, userId := 2, productId := 6, quantity := 3 }]
    cartItemId := 3 }

/-- Witness for C8: clearing user 1 empties their cart and leaves user 2
with exactly the item they had before. -/
theorem clearCart_only_affects_user_witness :
    getCartItems (clearCart twoUserCartStore 1) 1 = [] ∧
    getCartItems (clearCart twoUserCartStore 1) 2 =
      getCartItems twoUserCartStore 2 :=
  ⟨(clearCart_only_affects_user twoUserCartStore 1 2 (by decide)).1,
    (clearCart_only_affects_user twoUserCartStore 1 2 (by decide)).2.1⟩

/-- C10: the cart and order join paths are total: every matching line item
is returned (none is dropped and nothing fails), each joined with
`getProduct` of its product id — which is `none` when the referenced
product does not exist. -/
theorem join_paths_total (s : MemStorage) (u oid : Nat) :
    (getCartItems s u).length =
      (s.cartItems.filter (fun it => it.userId == u)).length ∧
    (∀ it ∈ s.cartItems, it.userId = u →
      ({ id := it.id, userId := it.userId, productId := it.productId,
         quantity := it.quantity,
         product := getProduct s it.productId } : JoinedCartItem) ∈
        getCartItems s u) ∧
    (getOrder s oid).isSome =
      (s.orders.find? (fun o => o.id == oid)).isSome ∧
    (∀ ow, getOrder s oid = some ow →
      ow.items.length =
        (s.orderItems.filter (fun it => it.orderId == oid)).length ∧
      ∀ it ∈ s.orderItems, it.orderId = oid →
        ({ id := it.id, orderId := it.orderId, productId := it.productId,
           quantity := it.quantity, price := it.price,
           product := getProduct s it.productId } : JoinedOrderItem) ∈
          ow.items) := by
  refine ⟨?_, ?_, ?_, ?_⟩
  · simp [getCartItems]
  · intro it hmem hu
    have hf : it ∈ s.cartItems.filter (fun it => it.userId == u) :=
      List.mem_filter.mpr ⟨hmem, by simp [hu]⟩
    exact List.mem_map_of_mem _ hf
  · unfold getOrder
    cases s.orders.find? (fun o => o.id == oid) <;> rfl
  · intro ow how
    unfold getOrder at how
    cases hf : s.orders.find? (fun o => o.id == oid) with
    | none => rw [hf] at how; cases how
    | some order =>
      rw [hf] at how
      cases how
      constructor
      · simp
      · intro it hmem hoid
        have hfi : it ∈ s.orderItems.filter (fun it => it.orderId == oid) :=
          List.mem_filter.mpr ⟨hmem, by simp [hoid]⟩
        exact List.mem_map_of_mem _ hfi

/-- Store fixture with dangling product references: a cart line item and an
order line item whose product id (99) has no product record. -/
def danglingStore : MemStorage :=
  { emptyStore with
    cartItems := [{ id := 1, userId := 1, productId := 99, quantity := 2 }]
    cartItemId := 2
    orders := [{ id := 1, userId := 1, total := 5, status := "pending",
                 createdAt := 0 }]
    orderId := 2
    orderItems := [{ id := 1, orderId := 1, productId := 99, quantity := 2,
                     price := 5 }]
    orderItemId := 2 }

/-- Witness for C10: with no product 99 in the store, the cart read still
returns the line item, its joined product being `none`. -/
theorem join_paths_total_witness :
    ({ id := 1, userId := 1, productId := 99, quantity := 2,
       product := none } : JoinedCartItem) ∈ getCartItems danglingStore 1 :=
  (join_paths_total danglingStore 1 1).2.1
    { id := 1, userId := 1, productId := 99, quantity := 2 }
    (by decide) rfl

/-- A falsy `categoryId` (absent or 0) makes the category stage a no-op. -/
theorem applyCategoryFilter_falsy (c : Option Nat)
    (h : natTruthy c = false) (l : List Product) :
    applyCategoryFilter c l = l := by
  cases c with
  | none => rfl
  | some n =>
    simp [natTruthy] at h
    simp [applyCategoryFilter, h]

/-- A falsy `search` (absent or empty) makes the search stage a no-op. -/
theorem applySearchFilter_falsy (q : Option String)
    (h : strTruthy q = false) (l : List Product) :
    applySearchFilter q l = l := by
  cases q with
  | none => rfl
  | some str =>
    simp [strTruthy] at h
    simp [applySearchFilter, h]

/-- A falsy `featured` (absent or false) makes the featured stage a
no-op. -/
theorem applyFeaturedFilter_falsy (f : Option Bool)
    (h : boolTruthy f = false) (l : List Product) :
    applyFeaturedFilter f l = l := by
  cases f with
  | none => rfl
  | some b =>
    simp [boolTruthy] at h
    simp [applyFeaturedFilter, h]

/-- Sorting never changes how many products there are. -/
theorem applySort_length (k : Option String) (l : List Product) :
    (applySort k l).length = l.length := by
  unfold applySort
  repeat' split
  all_goals first | rw [List.length_mergeSort] | rfl

/-- With `offset` absent the pagination stage is a no-op. -/
theorem applyPagination_offset_none (lim : Option Nat) (l : List Product) :
    applyPagination none lim l = l := by
  cases lim <;> rfl

/-- C1 counterexample: on a store seeded with one featured and one
non-featured product, the filter `{featured: true}` (no offset/limit)
yields one product from `getProducts` but `getProductCount` — which has no
featured filter — still reports two. -/
theorem count_ignores_featured_cex :
    getProductCount twoProductStore
        (ProductsOptions.toCountOptions { featured := some true }) ≠
      (getProducts twoProductStore { featured := some true }).length := by
  decide

/-- C1 (amended): for every store state and every filter whose featured
flag is falsy (absent or false), `getProductCount` on the filter's
categoryId/search fields equals the length of `getProducts` with offset and
limit removed — the category and search predicates are identical between
the two; the featured filter exists only in `getProducts`. -/
theorem count_matches_list_without_featured (s : MemStorage)
    (o : ProductsOptions) (hf : boolTruthy o.featured = false) :
    getProductCount s o.toCountOptions =
      (getProducts s { o with offset := none, limit := none }).length := by
  show getProductCount s { categoryId := o.categoryId, search := o.search } =
    (applyPagination none none
      (applySort o.sort
        (applySearchFilter o.search
          (applyFeaturedFilter o.featured
            (applyCategoryFilter o.categoryId s.products))))).length
  rw [applyPagination_offset_none, applyFeaturedFilter_falsy o.featured hf,
    applySort_length]
  unfold getProductCount
  by_cases hg : (natTruthy o.categoryId || strTruthy o.search) = true
  · rw [if_pos hg]
  · rw [if_neg hg]
    have hc : natTruthy o.categoryId = false := by
      cases hnc : natTruthy o.categoryId
      · rfl
      · exact absurd (by rw [hnc]; rfl) hg
    have hs : strTruthy o.search = false := by
      cases hns : strTruthy o.search
      · rfl
      · exact absurd (by rw [hns, Bool.or_true]) hg
    rw [applyCategoryFilter_falsy o.categoryId hc,
      applySearchFilter_falsy o.search hs]

/-- Witness for C1 (amended): on the two-product store, a category filter
with no featured flag gives count 1 and one listed product. -/
theorem count_matches_list_without_featured_witness :
    getProductCount twoProductStore
        (ProductsOptions.toCountOptions { categoryId := some 1 }) =
      (getProducts twoProductStore
        { categoryId := some 1, offset := none, limit := none }).length :=
  count_matches_list_without_featured twoProductStore
    { categoryId := some 1 } rfl

/-- `map.set` appends when no existing record has the key. -/
theorem mapSet_fresh (idOf : α → Nat) (l : List α) (k : Nat) (v : α)
    (h : ∀ x ∈ l, idOf x ≠ k) : mapSet idOf l k v = l ++ [v] := by
  unfold mapSet
  rw [if_neg]
  simp only [List.any_eq_true, not_exists, not_and]
  intro x hx
  simp [h x hx]

/-- `insertOrderItems` touches only the order-item table and its counter:
every other component of the state is unchanged. -/
theorem insertOrderItems_frame (oid : Nat) (items : List InsertOrderItem)
    (s : MemStorage) :
    (insertOrderItems oid items s).products = s.products ∧
    (insertOrderItems oid items s).orders = s.orders ∧
    (insertOrderItems oid items s).orderId = s.orderId ∧
    (insertOrderItems oid items s).cartItems = s.cartItems ∧
    (insertOrderItems oid items s).cartItemId = s.cartItemId ∧
    (insertOrderItems oid items s).users = s.users ∧
    (insertOrderItems oid items s).categories = s.categories := by
  induction items generalizing s with
  | nil => exact ⟨rfl, rfl, rfl, rfl, rfl, rfl, rfl⟩
  | cons item rest ih => exact ih _

/-- No storage operation changes the product table. -/
theorem applyOp_products (s : MemStorage) (op : StorageOp) :
    (applyOp s op).products = s.products := by
  cases op with
  | opCreateUser now ins => rfl
  | opAddCartItem ins =>
    show (addCartItem s ins).2.products = s.products
    unfold addCartItem
    cases getCartItem s ins.userId ins.productId <;> rfl
  | opUpdateCartItem id q =>
    show (updateCartItem s id q).2.products = s.products
    unfold updateCartItem
    cases s.cartItems.find? (fun item => item.id == id) <;> rfl
  | opRemoveCartItem id => rfl
  | opClearCart u => rfl
  | opCreateOrder now od items =>
    show (createOrder s now od items).2.products = s.products
    exact (insertOrderItems_frame _ _ _).1

/-- No sequence of storage operations changes the product table. -/
theorem applyOps_products (s : MemStorage) (ops : List StorageOp) :
    (applyOps s ops).products = s.products := by
  induction ops generalizing s with
  | nil => rfl
  | cons op rest ih => rw [applyOps, ih, applyOp_products]

/-- Every id the seeding loop assigns from `n` on is at least `n`. -/
theorem seedProducts_id_ge (l : List InsertProduct) (n : Nat) :
    ∀ p ∈ seedProducts l n, n ≤ p.id := by
  induction l generalizing n with
  | nil => intro p hp; cases hp
  | cons i rest ih =>
    intro p hp
    cases hp with
    | head => exact Nat.le_refl n
    | tail _ hm => exact Nat.le_of_succ_le (ih (n + 1) p hm)

/-- The seeding loop produces products in strictly ascending id order. -/
theorem seedProducts_sorted (l : List InsertProduct) (n : Nat) :
    (seedProducts l n).Pairwise (fun a b => a.id < b.id) := by
  induction l generalizing n with
  | nil => exact List.Pairwise.nil
  | cons i rest ih =>
    refine List.Pairwise.cons ?_ (ih (n + 1))
    intro p hp
    exact Nat.lt_of_succ_le (seedProducts_id_ge rest (n + 1) p hp)

/-- The category stage returns a sublist of its input. -/
theorem applyCategoryFilter_sublist (c : Option Nat) (l : List Product) :
    (applyCategoryFilter c l).Sublist l := by
  unfold applyCategoryFilter
  repeat' split
  all_goals first | exact List.filter_sublist _ | exact List.Sublist.refl _

/-- The featured stage returns a sublist of its input. -/
theorem applyFeaturedFilter_sublist (f : Option Bool) (l : List Product) :
    (applyFeaturedFilter f l).Sublist l := by
  unfold applyFeaturedFilter
  repeat' split
  all_goals first | exact List.filter_sublist _ | exact List.Sublist.refl _

/-- The search stage returns a sublist of its input. -/
theorem applySearchFilter_sublist (q : Option String) (l : List Product) :
    (applySearchFilter q l).Sublist l := by
  unfold applySearchFilter
  repeat' split
  all_goals first | exact List.filter_sublist _ | exact List.Sublist.refl _

/-- The pagination stage returns a sublist of its input. -/
theorem applyPagination_sublist (off lim : Option Nat) (l : List Product) :
    (applyPagination off lim l).Sublist l := by
  unfold applyPagination
  repeat' split
  · exact (List.take_sublist _ _).trans (List.drop_sublist _ _)
  · exact List.Sublist.refl _

/-- C7: in every state reachable from a freshly constructed (seeded) store
by any sequence of storage operations, a query whose sortKey is absent
returns exactly the offset/limit slice of the filtered product list —
filtering happens first, the slice last — and both the filtered list and
the returned slice are in strictly ascending id order. -/
theorem default_sort_is_id_ascending (cats : List (String × String))
    (inserts : List InsertProduct) (ops : List StorageOp)
    (o : ProductsOptions) (hsort : o.sort = none) :
    getProducts (applyOps (mkMemStorage cats inserts) ops) o =
      applyPagination o.offset o.limit
        (applySearchFilter o.search
          (applyFeaturedFilter o.featured
            (applyCategoryFilter o.categoryId
              (applyOps (mkMemStorage cats inserts) ops).products))) ∧
    (applySearchFilter o.search
        (applyFeaturedFilter o.featured
          (applyCategoryFilter o.categoryId
            (applyOps (mkMemStorage cats inserts) ops).products))).Pairwise
      (fun a b => a.id < b.id) ∧
    (getProducts (applyOps (mkMemStorage cats inserts) ops) o).Pairwise
      (fun a b => a.id < b.id) := by
  have hprod : (applyOps (mkMemStorage cats inserts) ops).products =
      seedProducts inserts 1 :=
    applyOps_products (mkMemStorage cats inserts) ops
  have hsorted :
      (applySearchFilter o.search
        (applyFeaturedFilter o.featured
          (applyCategoryFilter o.categoryId
            (applyOps (mkMemStorage cats inserts) ops).products))).Pairwise
        (fun a b => a.id < b.id) := by
    rw [hprod]
    exact ((seedProducts_sorted inserts 1).sublist
      (((applySearchFilter_sublist _ _).trans
        (applyFeaturedFilter_sublist _ _)).trans
        (applyCategoryFilter_sublist _ _)))
  have heq : getProducts (applyOps (mkMemStorage cats inserts) ops) o =
      applyPagination o.offset o.limit
        (applySearchFilter o.search
          (applyFeaturedFilter o.featured
            (applyCategoryFilter o.categoryId
              (applyOps (mkMemStorage cats inserts) ops).products))) := by
    unfold getProducts
    rw [hsort]
    rfl
  refine ⟨heq, hsorted, ?_⟩
  rw [heq]
  exact hsorted.sublist (applyPagination_sublist _ _ _)

/-- Two cart line items with different (user, product) keys. -/
def cartKeyDistinct (a b : CartItem) : Prop :=
  a.userId ≠ b.userId ∨ a.productId ≠ b.productId

/-- The cart invariant of the spec: at most one line item per
(user, product) pair. -/
def CartUniqueKeys (s : MemStorage) : Prop :=
  s.cartItems.Pairwise cartKeyDistinct

/-- Bookkeeping invariant of the auto-increment scheme: cart line item ids
are pairwise distinct and below the next-id counter. -/
def CartIdsOk (s : MemStorage) : Prop :=
  (s.cartItems.map CartItem.id).Nodup ∧
    ∀ it ∈ s.cartItems, it.id < s.cartItemId

/-- `map.set` takes the replace branch when some record has the key. -/
theorem mapSet_hit (idOf : α → Nat) (l : List α) (k : Nat) (v : α)
    (h : ∃ x ∈ l, idOf x = k) :
    mapSet idOf l k v = l.map (fun x => if idOf x == k then v else x) := by
  unfold mapSet
  rw [if_pos]
  simp only [List.any_eq_true]
  obtain ⟨x, hx, hk⟩ := h
  exact ⟨x, hx, by simp [hk]⟩

/-- Replacing the (unique) record of a given id with one of the same
(user, product) key preserves key-uniqueness. -/
theorem pairwise_replace_samekey (l : List CartItem) (k : Nat) (v : CartItem)
    (hnd : (l.map CartItem.id).Nodup)
    (hkey : ∀ x ∈ l, x.id = k →
      x.userId = v.userId ∧ x.productId = v.productId)
    (h : l.Pairwise cartKeyDistinct) :
    (l.map (fun x => if x.id == k then v else x)).Pairwise
      cartKeyDistinct := by
  rw [List.pairwise_map]
  refine h.imp_of_mem ?_
  intro a b ha hb hab
  by_cases hak : a.id = k <;> by_cases hbk : b.id = k
  · have hab_eq : a = b :=
      List.inj_on_of_nodup_map hnd ha hb (by rw [hak, hbk])
    subst hab_eq
    rcases hab with h | h <;> exact absurd rfl h
  · obtain ⟨hu, hp⟩ := hkey a ha hak
    simp only [hak, beq_self_eq_true, if_pos, hbk, if_neg, beq_iff_eq]
    rcases hab with h | h
    · exact Or.inl (by rw [← hu]; exact h)
    · exact Or.inr (by rw [← hp]; exact h)
  · obtain ⟨hu, hp⟩ := hkey b hb hbk
    simp only [hak, hbk, beq_self_eq_true, if_pos, if_neg, beq_iff_eq]
    rcases hab with h | h
    · exact Or.inl (by rw [← hu]; exact h)
    · exact Or.inr (by rw [← hp]; exact h)
  · simp only [hak, hbk, if_neg, beq_iff_eq]
    exact hab

/-- Replacing a record by one carrying the same id leaves the id list
unchanged. -/
theorem replace_ids_eq (l : List CartItem) (k : Nat) (v : CartItem)
    (hv : v.id = k) :
    (l.map (fun x => if x.id == k then v else x)).map CartItem.id =
      l.map CartItem.id := by
  rw [List.map_map]
  refine List.map_congr_left ?_
  intro x _
  by_cases hx : x.id = k
  · simp [hx, hv]
  · simp [hx]

/-- `createOrder` touches only the order tables and their counters. -/
theorem createOrder_frame (s : MemStorage) (now : Int) (od : InsertOrder)
    (items : List InsertOrderItem) :
    (createOrder s now od items).2.products = s.products ∧
    (createOrder s now od items).2.cartItems = s.cartItems ∧
    (createOrder s now od items).2.cartItemId = s.cartItemId ∧
    (createOrder s now od items).2.users = s.users ∧
    (createOrder s now od items).2.categories = s.categories :=
  ⟨(insertOrderItems_frame _ _ _).1,
    (insertOrderItems_frame _ _ _).2.2.2.1,
    (insertOrderItems_frame _ _ _).2.2.2.2.1,
    (insertOrderItems_frame _ _ _).2.2.2.2.2.1,
    (insertOrderItems_frame _ _ _).2.2.2.2.2.2⟩

/-- In-place replacement by an item with the same id and the same
(user, product) key preserves the cart invariants. -/
theorem cart_replace_inv (l : List CartItem) (c : Nat) (ex upd : CartItem)
    (hmem : ex ∈ l) (hid : upd.id = ex.id)
    (hkey : upd.userId = ex.userId ∧ upd.productId = ex.productId)
    (h1 : l.Pairwise cartKeyDistinct) (hnd : (l.map CartItem.id).Nodup)
    (hb : ∀ it ∈ l, it.id < c) :
    (mapSet CartItem.id l ex.id upd).Pairwise cartKeyDistinct ∧
    ((mapSet CartItem.id l ex.id upd).map CartItem.id).Nodup ∧
    ∀ it ∈ mapSet CartItem.id l ex.id upd, it.id < c := by
  have hhit := mapSet_hit CartItem.id l ex.id upd ⟨ex, hmem, rfl⟩
  have hids := replace_ids_eq l ex.id upd hid
  rw [hhit]
  refine ⟨?_, ?_, ?_⟩
  · refine pairwise_replace_samekey l ex.id upd hnd ?_ h1
    intro x hx hxk
    have hxe : x = ex :=
      List.inj_on_of_nodup_map hnd hx hmem (by rw [hxk])
    subst hxe
    exact ⟨hkey.1.symm, hkey.2.symm⟩
  · rw [hids]; exact hnd
  · intro it hit
    have hmm : it.id ∈
        (l.map (fun x => if x.id == ex.id then upd else x)).map CartItem.id :=
      List.mem_map_of_mem _ hit
    rw [hids] at hmm
    obtain ⟨x, hx, hxid⟩ := List.mem_map.mp hmm
    rw [← hxid]
    exact hb x hx

/-- Appending a fresh-id item whose (user, product) key is absent preserves
the cart invariants, with the counter advanced. -/
theorem cart_append_inv (l : List CartItem) (c : Nat) (v : CartItem)
    (hvc : v.id = c)
    (hnokey : ∀ x ∈ l, cartKeyDistinct x v)
    (h1 : l.Pairwise cartKeyDistinct) (hnd : (l.map CartItem.id).Nodup)
    (hb : ∀ it ∈ l, it.id < c) :
    (mapSet CartItem.id l v.id v).Pairwise cartKeyDistinct ∧
    ((mapSet CartItem.id l v.id v).map CartItem.id).Nodup ∧
    ∀ it ∈ mapSet CartItem.id l v.id v, it.id < c + 1 := by
  have hfresh : ∀ x ∈ l, CartItem.id x ≠ v.id := by
    intro x hx
    rw [hvc]
    exact Nat.ne_of_lt (hb x hx)
  rw [mapSet_fresh _ _ _ _ hfresh]
  refine ⟨?_, ?_, ?_⟩
  · rw [List.pairwise_append]
    refine ⟨h1, List.pairwise_singleton _ _, ?_⟩
    intro a ha b hb'
    rw [List.mem_singleton] at hb'
    subst hb'
    exact hnokey a ha
  · rw [List.map_append, List.map_singleton]
    refine hnd.append (List.nodup_singleton _) ?_
    intro a ha hb'
    rw [List.mem_singleton] at hb'
    subst hb'
    obtain ⟨x, hx, hxid⟩ := List.mem_map.mp ha
    exact absurd hxid (hfresh x hx)
  · intro it hit
    rcases List.mem_append.mp hit with h | h
    · exact Nat.lt_succ_of_lt (hb it h)
    · rw [List.mem_singleton] at h
      subst h
      rw [hvc]
      exact Nat.lt_succ_self c

/-- A sublist of the cart line items keeps the cart invariants (with the
same counter). -/
theorem cart_sublist_inv (l l2 : List CartItem) (c : Nat)
    (hsub : l2.Sublist l)
    (h1 : l.Pairwise cartKeyDistinct) (hnd : (l.map CartItem.id).Nodup)
    (hb : ∀ it ∈ l, it.id < c) :
    l2.Pairwise cartKeyDistinct ∧ (l2.map CartItem.id).Nodup ∧
    ∀ it ∈ l2, it.id < c :=
  ⟨h1.sublist hsub, hnd.sublist (hsub.map _),
    fun it hit => hb it (hsub.mem hit)⟩

/-- Every storage operation preserves cart key-uniqueness and the cart id
bookkeeping. -/
theorem cart_inv_preserved (s : MemStorage) (op : StorageOp)
    (h1 : CartUniqueKeys s) (h2 : CartIdsOk s) :
    CartUniqueKeys (applyOp s op) ∧ CartIdsOk (applyOp s op) := by
  obtain ⟨hnd, hbound⟩ := h2
  cases op with
  | opCreateUser now ins => exact ⟨h1, hnd, hbound⟩
  | opAddCartItem ins =>
    show CartUniqueKeys (addCartItem s ins).2 ∧ CartIdsOk (addCartItem s ins).2
    unfold addCartItem
    cases hic : getCartItem s ins.userId ins.productId with
    | some ex =>
      have hexmem : ex ∈ s.cartItems := List.mem_of_find?_eq_some hic
      have h := cart_replace_inv s.cartItems s.cartItemId ex
        { ex with quantity := ex.quantity + ins.quantity }
        hexmem rfl ⟨rfl, rfl⟩ h1 hnd hbound
      exact ⟨h.1, h.2.1, h.2.2⟩
    | none =>
      have hnokey : ∀ x ∈ s.cartItems,
          cartKeyDistinct x
            { id := s.cartItemId, userId := ins.userId,
              productId := ins.productId, quantity := ins.quantity } := by
        intro x hx
        have hnp := List.find?_eq_none.mp hic x hx
        simp only [Bool.and_eq_true, beq_iff_eq, not_and] at hnp
        by_cases hxu : x.userId = ins.userId
        · exact Or.inr (hnp hxu)
        · exact Or.inl hxu
      have h := cart_append_inv s.cartItems s.cartItemId
        { id := s.cartItemId, userId := ins.userId,
          productId := ins.productId, quantity := ins.quantity }
        rfl hnokey h1 hnd hbound
      exact ⟨h.1, h.2.1, h.2.2⟩
  | opUpdateCartItem id q =>
    show CartUniqueKeys (updateCartItem s id q).2 ∧
      CartIdsOk (updateCartItem s id q).2
    unfold updateCartItem
    cases hif : s.cartItems.find? (fun item => item.id == id) with
    | none => exact ⟨h1, hnd, hbound⟩
    | some item =>
      have hmem : item ∈ s.cartItems := List.mem_of_find?_eq_some hif
      have hkid : item.id = id := by
        have := List.find?_some hif
        simpa using this
      have h := cart_replace_inv s.cartItems s.cartItemId item
        { item with quantity := q } hmem rfl ⟨rfl, rfl⟩ h1 hnd hbound
      rw [← hkid]
      exact ⟨h.1, h.2.1, h.2.2⟩
  | opRemoveCartItem id =>
    have h := cart_sublist_inv s.cartItems
      (s.cartItems.filter (fun item => !(item.id == id))) s.cartItemId
      (List.filter_sublist _) h1 hnd hbound
    exact ⟨h.1, h.2.1, h.2.2⟩
  | opClearCart u =>
    have h := cart_sublist_inv s.cartItems
      (s.cartItems.filter (fun item => !(item.userId == u))) s.cartItemId
      (List.filter_sublist _) h1 hnd hbound
    exact ⟨h.1, h.2.1, h.2.2⟩
  | opCreateOrder now od items =>
    show CartUniqueKeys (createOrder s now od items).2 ∧
      CartIdsOk (createOrder s now od items).2
    have hci := (createOrder_frame s now od items).2.1
    have hcc := (createOrder_frame s now od items).2.2.1
    refine ⟨?_, ?_, ?_⟩
    · show (createOrder s now od items).2.cartItems.Pairwise cartKeyDistinct
      rw [hci]
      exact h1
    · show ((createOrder s now od items).2.cartItems.map CartItem.id).Nodup
      rw [hci]
      exact hnd
    · intro it hit
      rw [hci] at hit
      rw [hcc]
      exact hbound it hit

/-- C3: starting from any store whose cart has no line item for
(user, product) and whose id bookkeeping is sound, adding the product twice
leaves exactly one line item for the pair, carrying quantity q1 + q2; and
every storage operation preserves the at-most-one-item-per-pair
invariant. -/
theorem addCartItem_merges_duplicates :
    (∀ (s : MemStorage) (u p q1 q2 : Nat), CartIdsOk s →
      getCartItem s u p = none →
      (addCartItem (addCartItem s
          { userId := u, productId := p, quantity := q1 }).2
          { userId := u, productId := p, quantity := q2 }).2.cartItems.filter
          (fun it => it.userId == u && it.productId == p) =
        [{ id := s.cartItemId, userId := u, productId := p,
           quantity := q1 + q2 }]) ∧
    (∀ (s : MemStorage) (op : StorageOp), CartUniqueKeys s → CartIdsOk s →
      CartUniqueKeys (applyOp s op)) := by
  constructor
  · intro s u p q1 q2 h2 hnone
    obtain ⟨hnd, hb⟩ := h2
    have hfresh1 : ∀ x ∈ s.cartItems, CartItem.id x ≠ s.cartItemId :=
      fun x hx => Nat.ne_of_lt (hb x hx)
    have hnp : ∀ x ∈ s.cartItems,
        ¬(x.userId == u && x.productId == p) = true :=
      List.find?_eq_none.mp hnone
    have hs1 : (addCartItem s
        { userId := u, productId := p, quantity := q1 }).2 =
        { s with
          cartItems := s.cartItems ++
            [{ id := s.cartItemId, userId := u, productId := p,
               quantity := q1 }],
          cartItemId := s.cartItemId + 1 } := by
      simp only [addCartItem, hnone]
      rw [mapSet_fresh _ _ _ _ hfresh1]
    rw [hs1]
    have hfind : getCartItem
        { s with
          cartItems := s.cartItems ++
            [{ id := s.cartItemId, userId := u, productId := p,
               quantity := q1 }],
          cartItemId := s.cartItemId + 1 } u p =
        some { id := s.cartItemId, userId := u, productId := p,
               quantity := q1 } := by
      unfold getCartItem
      simp only [List.find?_append]
      rw [show List.find?
          (fun item => item.userId == u && item.productId == p)
          s.cartItems = none from hnone]
      simp [List.find?]
    simp only [addCartItem, hfind]
    have hhit2 : mapSet CartItem.id
        (s.cartItems ++
          [{ id := s.cartItemId, userId := u, productId := p,
             quantity := q1 }])
        s.cartItemId
        { id := s.cartItemId, userId := u, productId := p,
          quantity := q1 + q2 } =
        (s.cartItems ++
          ([{ id := s.cartItemId, userId := u, productId := p,
              quantity := q1 }] : List CartItem)).map
          (fun x : CartItem => if x.id == s.cartItemId
            then ({ id := s.cartItemId, userId := u, productId := p,
                    quantity := q1 + q2 } : CartItem)
            else x) :=
      mapSet_hit CartItem.id
        (s.cartItems ++
          ([{ id := s.cartItemId, userId := u, productId := p,
              quantity := q1 }] : List CartItem))
        s.cartItemId
        ({ id := s.cartItemId, userId := u, productId := p,
           quantity := q1 + q2 } : CartItem)
        ⟨{ id := s.cartItemId, userId := u, productId := p, quantity := q1 },
          by simp, rfl⟩
    rw [hhit2]
    rw [List.map_append]
    have hmapl : s.cartItems.map
        (fun x => if x.id == s.cartItemId
          then { id := s.cartItemId, userId := u, productId := p,
                 quantity := q1 + q2 }
          else x) = s.cartItems := by
      conv_rhs => rw [← List.map_id s.cartItems]
      refine List.map_congr_left ?_
      intro x hx
      simp [hfresh1 x hx]
    rw [hmapl]
    rw [List.filter_append]
    rw [List.filter_eq_nil_iff.mpr hnp]
    simp
  · intro s op h1 h2
    exact (cart_inv_preserved s op h1 h2).1

/-- Witness for C3: adding product 2 twice (quantities 2 then 3) to user 1
in the empty store leaves one line item of quantity 5, and the invariant
survives a concrete operation. -/
theorem addCartItem_merges_duplicates_witness :
    (addCartItem (addCartItem emptyStore
        { userId := 1, productId := 2, quantity := 2 }).2
        { userId := 1, productId := 2, quantity := 3 }).2.cartItems.filter
        (fun it => it.userId == 1 && it.productId == 2) =
      [{ id := 1, userId := 1, productId := 2, quantity := 5 }] ∧
    CartUniqueKeys (applyOp emptyStore
      (StorageOp.opAddCartItem
        { userId := 1, productId := 2, quantity := 2 })) :=
  ⟨addCartItem_merges_duplicates.1 emptyStore 1 2 2 3
      ⟨by decide, by decide⟩ (by decide),
    addCartItem_merges_duplicates.2 emptyStore
      (StorageOp.opAddCartItem { userId := 1, productId := 2, quantity := 2 })
      List.Pairwise.nil ⟨by decide, by decide⟩⟩

/-- The list of order items `createOrder` persists for the incoming items,
with ids counting up from `startId` and the order id as foreign key. -/
def newOrderItems (oid : Nat) (items : List InsertOrderItem)
    (startId : Nat) : List OrderItem :=
  match items with
  | [] => []
  | item :: rest =>
    { id := startId, orderId := oid, productId := item.productId,
      quantity := item.quantity, price := item.price } ::
      newOrderItems oid rest (startId + 1)

/-- The persisted order items carry exactly the incoming prices, in
order. -/
theorem newOrderItems_price_map (oid : Nat) (items : List InsertOrderItem)
    (n : Nat) :
    (newOrderItems oid items n).map OrderItem.price =
      items.map InsertOrderItem.price := by
  induction items generalizing n with
  | nil => rfl
  | cons item rest ih => simp [newOrderItems, ih]

/-- Every persisted order item points at the creating order. -/
theorem newOrderItems_orderId_eq (oid : Nat) (items : List InsertOrderItem)
    (n : Nat) : ∀ it ∈ newOrderItems oid items n, it.orderId = oid := by
  induction items generalizing n with
  | nil => intro it h; cases h
  | cons item rest ih =>
    intro it h
    cases h with
    | head => rfl
    | tail _ hm => exact ih (n + 1) it hm

/-- Filtering the persisted items by the creating order keeps them all. -/
theorem newOrderItems_filter_self (oid : Nat) (items : List InsertOrderItem)
    (n : Nat) :
    (newOrderItems oid items n).filter (fun it => it.orderId == oid) =
      newOrderItems oid items n := by
  rw [List.filter_eq_self]
  intro it hm
  simp [newOrderItems_orderId_eq oid items n it hm]

/-- Filtering the persisted items by any other order id drops them all. -/
theorem newOrderItems_filter_ne (oid t : Nat) (hne : t ≠ oid)
    (items : List InsertOrderItem) (n : Nat) :
    (newOrderItems oid items n).filter (fun it => it.orderId == t) = [] := by
  rw [List.filter_eq_nil_iff]
  intro it hm
  simp [newOrderItems_orderId_eq oid items n it hm]
  exact fun h => hne h.symm

/-- Id bound on the persisted items. -/
theorem newOrderItems_id_lt (oid : Nat) (items : List InsertOrderItem)
    (n : Nat) :
    ∀ it ∈ newOrderItems oid items n, it.id < n + items.length := by
  induction items generalizing n with
  | nil => intro it h; cases h
  | cons item rest ih =>
    intro it h
    cases h with
    | head => simp
    | tail _ hm =>
      have := ih (n + 1) it hm
      simp only [List.length_cons]
      omega

/-- The item-insertion loop appends `newOrderItems`, provided the id
counter is above every existing item id. -/
theorem insertOrderItems_items (oid : Nat) (items : List InsertOrderItem)
    (s : MemStorage) (hb : ∀ it ∈ s.orderItems, it.id < s.orderItemId) :
    (insertOrderItems oid items s).orderItems =
      s.orderItems ++ newOrderItems oid items s.orderItemId := by
  induction items generalizing s with
  | nil => simp [insertOrderItems, newOrderItems]
  | cons item rest ih =>
    have hfresh : ∀ x ∈ s.orderItems, OrderItem.id x ≠ s.orderItemId :=
      fun x hx => Nat.ne_of_lt (hb x hx)
    have hset : mapSet OrderItem.id s.orderItems s.orderItemId
        ({ id := s.orderItemId, orderId := oid, productId := item.productId,
           quantity := item.quantity, price := item.price } : OrderItem) =
        s.orderItems ++
          [{ id := s.orderItemId, orderId := oid,
             productId := item.productId, quantity := item.quantity,
             price := item.price }] :=
      mapSet_fresh _ _ _ _ hfresh
    have hb1 : ∀ it ∈ (mapSet OrderItem.id s.orderItems s.orderItemId
        ({ id := s.orderItemId, orderId := oid, productId := item.productId,
           quantity := item.quantity, price := item.price } : OrderItem)),
        it.id < s.orderItemId + 1 := by
      rw [hset]
      intro it hit
      rcases List.mem_append.mp hit with h | h
      · exact Nat.lt_succ_of_lt (hb it h)
      · rw [List.mem_singleton] at h
        subst h
        exact Nat.lt_succ_self _
    show (insertOrderItems oid rest
      { s with
        orderItems := mapSet OrderItem.id s.orderItems s.orderItemId
          { id := s.orderItemId, orderId := oid,
            productId := item.productId, quantity := item.quantity,
            price := item.price },
        orderItemId := s.orderItemId + 1 }).orderItems =
      s.orderItems ++ newOrderItems oid (item :: rest) s.orderItemId
    rw [ih _ hb1]
    show mapSet OrderItem.id s.orderItems s.orderItemId
        { id := s.orderItemId, orderId := oid, productId := item.productId,
          quantity := item.quantity, price := item.price } ++
        newOrderItems oid rest (s.orderItemId + 1) =
      s.orderItems ++ newOrderItems oid (item :: rest) s.orderItemId
    rw [hset]
    show s.orderItems ++
        [{ id := s.orderItemId, orderId := oid,
           productId := item.productId, quantity := item.quantity,
           price := item.price }] ++
        newOrderItems oid rest (s.orderItemId + 1) =
      s.orderItems ++
        ({ id := s.orderItemId, orderId := oid,
           productId := item.productId, quantity := item.quantity,
           price := item.price } :: newOrderItems oid rest (s.orderItemId + 1))
    rw [List.append_assoc, List.singleton_append]

/-- The item-insertion loop advances the item id counter by the number of
items. -/
theorem insertOrderItems_counter (oid : Nat) (items : List InsertOrderItem)
    (s : MemStorage) :
    (insertOrderItems oid items s).orderItemId =
      s.orderItemId + items.length := by
  induction items generalizing s with
  | nil => rfl
  | cons item rest ih =>
    show (insertOrderItems oid rest _).orderItemId = _
    rw [ih _]
    show s.orderItemId + 1 + rest.length = s.orderItemId + (item :: rest).length
    simp [List.length_cons]
    omega

/-- Bookkeeping invariant of the order tables: order and order-item ids are
below their counters, and every order item references an already-assigned
order id. -/
def OrderIdsOk (s : MemStorage) : Prop :=
  (∀ o ∈ s.orders, o.id < s.orderId) ∧
  (∀ it ∈ s.orderItems, it.id < s.orderItemId) ∧
  (∀ it ∈ s.orderItems, it.orderId < s.orderId)

/-- What `createOrder` does to the order tables: the created header gets id
`s.orderId` and is findable, its filtered line items carry exactly the
incoming prices, the id counter moves past the new id, and the bookkeeping
invariant is preserved. -/
theorem createOrder_creates (s : MemStorage) (hinv : OrderIdsOk s)
    (now : Int) (od : InsertOrder) (items : List InsertOrderItem) :
    (createOrder s now od items).1.id = s.orderId ∧
    (createOrder s now od items).2.orders.find?
      (fun o => o.id == s.orderId) = some (createOrder s now od items).1 ∧
    ((createOrder s now od items).2.orderItems.filter
      (fun it => it.orderId == s.orderId)).map OrderItem.price =
      items.map InsertOrderItem.price ∧
    s.orderId < (createOrder s now od items).2.orderId ∧
    OrderIdsOk (createOrder s now od items).2 := by
  obtain ⟨hro, hri, hrf⟩ := hinv
  have hofresh : ∀ x ∈ s.orders, Order.id x ≠ s.orderId :=
    fun x hx => Nat.ne_of_lt (hro x hx)
  have horders : (createOrder s now od items).2.orders =
      s.orders ++ [{ id := s.orderId, userId := od.userId,
                     total := od.total, status := od.status,
                     createdAt := now }] := by
    show (insertOrderItems s.orderId items
      { s with
        orders := mapSet Order.id s.orders s.orderId
          { id := s.orderId, userId := od.userId, total := od.total,
            status := od.status, createdAt := now },
        orderId := s.orderId + 1 }).orders = _
    rw [(insertOrderItems_frame _ _ _).2.1]
    exact mapSet_fresh _ _ _ _ hofresh
  have hitems : (createOrder s now od items).2.orderItems =
      s.orderItems ++ newOrderItems s.orderId items s.orderItemId :=
    insertOrderItems_items _ _ _ hri
  have hcounter : (createOrder s now od items).2.orderItemId =
      s.orderItemId + items.length :=
    insertOrderItems_counter _ _ _
  have horderId : (createOrder s now od items).2.orderId = s.orderId + 1 :=
    (insertOrderItems_frame _ _ _).2.2.1
  have hfind : (createOrder s now od items).2.orders.find?
      (fun o => o.id == s.orderId) = some (createOrder s now od items).1 := by
    rw [horders, List.find?_append]
    rw [List.find?_eq_none.mpr
      (fun x hx => by simp [Nat.ne_of_lt (hro x hx)])]
    rw [Option.none_or]
    rw [List.find?_cons_of_pos _ (by simp)]
    rfl
  have hfiltermap : ((createOrder s now od items).2.orderItems.filter
      (fun it => it.orderId == s.orderId)).map OrderItem.price =
      items.map InsertOrderItem.price := by
    rw [hitems, List.filter_append]
    rw [List.filter_eq_nil_iff.mpr
      (fun x hx => by simp [Nat.ne_of_lt (hrf x hx)])]
    rw [List.nil_append, newOrderItems_filter_self, newOrderItems_price_map]
  refine ⟨rfl, hfind, hfiltermap, ?_, ?_, ?_, ?_⟩
  · rw [horderId]
    exact Nat.lt_succ_self _
  · rw [horders, horderId]
    intro o ho
    rcases List.mem_append.mp ho with h | h
    · exact Nat.lt_succ_of_lt (hro o h)
    · rw [List.mem_singleton] at h
      subst h
      exact Nat.lt_succ_self _
  · rw [hitems, hcounter]
    intro it hit
    rcases List.mem_append.mp hit with h | h
    · exact Nat.lt_of_lt_of_le (hri it h) (Nat.le_add_right _ _)
    · exact newOrderItems_id_lt _ _ _ it h
  · rw [hitems, horderId]
    intro it hit
    rcases List.mem_append.mp hit with h | h
    · exact Nat.lt_succ_of_lt (hrf it h)
    · rw [newOrderItems_orderId_eq _ _ _ it h]
      exact Nat.lt_succ_self _

/-- `createOrder` appends the new header after all existing orders. -/
theorem createOrder_orders_eq (s : MemStorage) (now : Int)
    (od : InsertOrder) (items : List InsertOrderItem)
    (hro : ∀ o ∈ s.orders, o.id < s.orderId) :
    (createOrder s now od items).2.orders =
      s.orders ++ [{ id := s.orderId, userId := od.userId,
                     total := od.total, status := od.status,
                     createdAt := now }] := by
  show (insertOrderItems s.orderId items
    { s with
      orders := mapSet Order.id s.orders s.orderId
        { id := s.orderId, userId := od.userId, total := od.total,
          status := od.status, createdAt := now },
      orderId := s.orderId + 1 }).orders = _
  rw [(insertOrderItems_frame _ _ _).2.1]
  exact mapSet_fresh _ _ _ _ (fun x hx => Nat.ne_of_lt (hro x hx))

/-- One storage operation never disturbs an already-assigned order: its
header lookup and its line-item selection are unchanged, its id stays below
the order counter, and the bookkeeping invariant is preserved. -/
theorem order_frame_op (s : MemStorage) (op : StorageOp) (t : Nat)
    (hinv : OrderIdsOk s) (ht : t < s.orderId) :
    (applyOp s op).orders.find? (fun o => o.id == t) =
      s.orders.find? (fun o => o.id == t) ∧
    (applyOp s op).orderItems.filter (fun it => it.orderId == t) =
      s.orderItems.filter (fun it => it.orderId == t) ∧
    t < (applyOp s op).orderId ∧
    OrderIdsOk (applyOp s op) := by
  obtain ⟨hro, hri, hrf⟩ := hinv
  cases op with
  | opCreateUser now ins => exact ⟨rfl, rfl, ht, hro, hri, hrf⟩
  | opAddCartItem ins =>
    simp only [applyOp]
    unfold addCartItem
    cases getCartItem s ins.userId ins.productId <;>
      exact ⟨rfl, rfl, ht, hro, hri, hrf⟩
  | opUpdateCartItem id q =>
    simp only [applyOp]
    unfold updateCartItem
    cases s.cartItems.find? (fun item => item.id == id) <;>
      exact ⟨rfl, rfl, ht, hro, hri, hrf⟩
  | opRemoveCartItem id => exact ⟨rfl, rfl, ht, hro, hri, hrf⟩
  | opClearCart u => exact ⟨rfl, rfl, ht, hro, hri, hrf⟩
  | opCreateOrder now od items =>
    simp only [applyOp]
    have horders := createOrder_orders_eq s now od items hro
    have hitems : (createOrder s now od items).2.orderItems =
        s.orderItems ++ newOrderItems s.orderId items s.orderItemId :=
      insertOrderItems_items _ _ _ hri
    have horderId : (createOrder s now od items).2.orderId =
        s.orderId + 1 :=
      (insertOrderItems_frame _ _ _).2.2.1
    refine ⟨?_, ?_, ?_, ?_⟩
    · rw [horders, List.find?_append]
      have hone : List.find? (fun o => o.id == t)
          [({ id := s.orderId, userId := od.userId, total := od.total,
              status := od.status, createdAt := now } : Order)] = none := by
        simp
        omega
      rw [hone, Option.or_none]
    · rw [hitems, List.filter_append,
        newOrderItems_filter_ne s.orderId t (Nat.ne_of_lt ht) items
          s.orderItemId,
        List.append_nil]
    · rw [horderId]
      exact Nat.lt_succ_of_lt ht
    · exact (createOrder_creates s ⟨hro, hri, hrf⟩ now od items).2.2.2.2

/-- A sequence of storage operations never disturbs an already-assigned
order. -/
theorem order_frame_ops (s : MemStorage) (ops : List StorageOp) (t : Nat)
    (hinv : OrderIdsOk s) (ht : t < s.orderId) :
    (applyOps s ops).orders.find? (fun o => o.id == t) =
      s.orders.find? (fun o => o.id == t) ∧
    (applyOps s ops).orderItems.filter (fun it => it.orderId == t) =
      s.orderItems.filter (fun it => it.orderId == t) ∧
    t < (applyOps s ops).orderId ∧
    OrderIdsOk (applyOps s ops) := by
  induction ops generalizing s with
  | nil => exact ⟨rfl, rfl, ht, hinv⟩
  | cons op rest ih =>
    obtain ⟨h1, h2, h3, h4⟩ := order_frame_op s op t hinv ht
    obtain ⟨g1, g2, g3, g4⟩ := ih (applyOp s op) h4 h3
    exact ⟨g1.trans h1, g2.trans h2, g3, g4⟩

/-- The prices `getOrder` reports are read off the stored order items,
independently of the product table. -/
theorem getOrder_price_of (s2 : MemStorage) (t : Nat) (order : Order)
    (hfind : s2.orders.find? (fun o => o.id == t) = some order) :
    (getOrder s2 t).map (fun ow => ow.items.map JoinedOrderItem.price) =
      some ((s2.orderItems.filter (fun it => it.orderId == t)).map
        OrderItem.price) := by
  unfold getOrder
  rw [hfind]
  simp only [Option.map_some', List.map_map]
  rfl

/-- C4: after `createOrder` with non-empty items, the prices `getOrder`
reports for that order equal the prices passed in — across any later
sequence of storage operations and any wholesale replacement of the
product table (which over-approximates any change to live product
prices). -/
theorem order_prices_snapshot (s : MemStorage) (hinv : OrderIdsOk s)
    (now : Int) (od : InsertOrder) (items : List InsertOrderItem)
    (hne : items ≠ []) (ops : List StorageOp) (ps : List Product) :
    (getOrder (setProducts (applyOps (createOrder s now od items).2 ops) ps)
        (createOrder s now od items).1.id).map
      (fun ow => ow.items.map JoinedOrderItem.price) =
      some (items.map InsertOrderItem.price) := by
  obtain ⟨hid, hfind, hfilter, hlt, hinv2⟩ :=
    createOrder_creates s hinv now od items
  obtain ⟨g1, g2, g3, g4⟩ :=
    order_frame_ops (createOrder s now od items).2 ops s.orderId hinv2 hlt
  rw [hid]
  have hfind2 : (setProducts
      (applyOps (createOrder s now od items).2 ops) ps).orders.find?
      (fun o => o.id == s.orderId) = some (createOrder s now od items).1 := by
    show (applyOps (createOrder s now od items).2 ops).orders.find?
      (fun o => o.id == s.orderId) = some (createOrder s now od items).1
    rw [g1, hfind]
  rw [getOrder_price_of _ _ _ hfind2]
  show some (((applyOps (createOrder s now od items).2 ops).orderItems.filter
      (fun it => it.orderId == s.orderId)).map OrderItem.price) =
    some (items.map InsertOrderItem.price)
  rw [g2, hfilter]

/-- Order item fixture used by the C4 witness. -/
def sampleOrderItem : InsertOrderItem :=
  { orderId := 0, productId := 3, quantity := 2, price := 19.99 }

/-- Witness for C4: in the empty store, an order created with one 19.99
line item still reports price 19.99 after a later cart-clearing operation
and after the product table is replaced. -/
theorem order_prices_snapshot_witness :
    (getOrder (setProducts (applyOps (createOrder emptyStore 7
          { userId := 1, total := 5, status := "pending" }
          [sampleOrderItem]).2 [StorageOp.opClearCart 1]) [])
        (createOrder emptyStore 7
          { userId := 1, total := 5, status := "pending" }
          [sampleOrderItem]).1.id).map
      (fun ow => ow.items.map JoinedOrderItem.price) =
      some [(19.99 : Rat)] :=
  order_prices_snapshot emptyStore
    ⟨fun o ho => absurd ho (List.not_mem_nil o),
      fun it hit => absurd hit (List.not_mem_nil it),
      fun it hit => absurd hit (List.not_mem_nil it)⟩
    7 { userId := 1, total := 5, status := "pending" }
    [sampleOrderItem] (by simp) [StorageOp.opClearCart 1] []

/-- Witness for C7: on the seeded two-product store with no operations
applied and an all-default filter, the returned list is in ascending id
order. -/
theorem default_sort_is_id_ascending_witness :
    (getProducts (applyOps (mkMemStorage [("c", "i")] [insertA, insertB]) [])
      ({} : ProductsOptions)).Pairwise (fun a b => a.id < b.id) :=
  (default_sort_is_id_ascending [("c", "i")] [insertA, insertB] []
    ({} : ProductsOptions) rfl).2.2
